import Mathlib

/-
Verification of the mdgaziur/stupid-allocator repository.

The repository contains two sbrk-based free-list allocators:
  * src/src/allocator.rs  (crate allocator_speedrun): modelled in namespace Speedrun.
  * src/src/lib.rs        (StupidAllocator): modelled in namespace Stupid.

Modelling conventions:
  * Machine addresses and sizes are Nat.  Rust usize arithmetic that would
    overflow panics in the source (debug) and never occurs on the traces and
    states considered here, so no 2^64 wrap is modelled.  Rust's saturating
    behaviour of `a - b` does not arise: every subtraction performed by the
    source on the modelled states has a <= minuend subtrahend.
  * sbrk is modelled by the current break (a Nat in the state) together with
    an explicit success flag passed to the operations: on success sbrk(d)
    returns the previous break and the break advances by d; on refusal the
    model reports failure through the code's own failure branch.
  * Struct layout constants are those of x86-64:
    allocator.rs Block { data: *mut u8, size: usize, next: Option<NonNull<Block>>, free: bool }
      has size 32 and alignment 8; NonNull::<u8>::dangling() is address 1.
    lib.rs Block { layout: Layout, data: *mut u8, next: *mut Block, is_free: bool }
      has size 40; size_of::<intptr_t>() = 8.
  * The singly linked list of blocks is represented positionally by a Lean
    list: the sentinel / head block followed by the blocks in link order.
    A raw `next` pointer is the tail of the list at that position.
-/

/-- Rust std::alloc::Layout: a size and an alignment.  Layout's constructors
guarantee the alignment is a (non-zero) power of two; theorems that need
this carry it as a hypothesis. -/
structure Layout where
  size : Nat
  align : Nat
deriving DecidableEq

namespace Speedrun

/-- allocator.rs Block.  The `next` link is represented positionally by the
enclosing list. -/
structure Block where
  data : Nat
  size : Nat
  free : Bool
deriving DecidableEq

/-- size_of::<Block>() on x86-64. -/
def sizeof_block : Nat := 32

/-- align_of::<Block>() on x86-64. -/
def alignof_block : Nat := 8

/-- AllocatorImpl::BLOCK0: the head sentinel.  data = NonNull::<u8>::dangling()
= 1, size = 0, next = None, free = false. -/
def BLOCK0 : Block := ⟨1, 0, false⟩

/-- AllocatorImpl state: the current program break and the block list.
`head` is the sentinel stored in the struct itself; `blocks` are the heap
blocks reachable from it in link order. -/
structure State where
  brk : Nat
  head : Block
  blocks : List Block
deriving DecidableEq

/-- allocator.rs align_up: `(addr + align - 1) & !(align - 1)` under
`assert!(align.is_power_of_two())`.  For a power of two `align` the mask
clears the low bits of `addr + align - 1`, i.e. subtracts its remainder
mod `align`; every call site passes a power of two (align_of::<Block>() or
Layout::align). -/
def align_up (addr align : Nat) : Nat :=
  (addr + align - 1) - (addr + align - 1) % align

/-- Block::find_first_fit: linear scan from the receiver, returning the first
block with `size >= requested && free`. -/
def find_first_fit (size : Nat) : List Block → Option Block
  | [] => none
  | b :: rest => if b.size ≥ size ∧ b.free then some b else find_first_fit size rest

/-- Block::find_by_ptr: first block whose data address equals the pointer. -/
def find_by_ptr (ptr : Nat) : List Block → Option Block
  | [] => none
  | b :: rest => if b.data = ptr then some b else find_by_ptr ptr rest

/-- The quantity allocator.rs calls `alloc_sz`:
`align_up(align_up(previous_break, align_of::<Block>()) + size_of::<Block>(), layout.align()) + layout.size()`.
Note it is an absolute end address, not a size. -/
def alloc_sz (previous_break : Nat) (l : Layout) : Nat :=
  align_up (align_up previous_break alignof_block + sizeof_block) l.align + l.size

/-- AllocatorImpl::allocate.  Returns the data pointer (none = null) and the
state after the call.  `sbrk_ok` tells whether a break extension would be
granted; on success sbrk returns the previous break, whose null check is the
`previous_break = 0` test. -/
def allocate (st : State) (l : Layout) (sbrk_ok : Bool) : Option Nat × State :=
  let previous_break := st.brk
  let sz := alloc_sz previous_break l
  match find_first_fit sz (st.head :: st.blocks) with
  | some b => (some b.data, st)
  | none =>
    if sbrk_ok = false then (none, st)
    else if previous_break = 0 then (none, st)
    else
      let new_block_addr := align_up previous_break alignof_block
      let data := align_up (new_block_addr + sizeof_block) l.align
      (some data,
        ⟨previous_break + (sz - previous_break), st.head,
          st.blocks ++ [⟨data, l.size, false⟩]⟩)

/-- Result of AllocatorImpl::deallocate: either a normal return with the new
state, or a process abort carrying the pointer printed by the
`eprintln!("double free: {:?}", ptr)` diagnostic. -/
inductive DeallocResult where
  | ok (st : State)
  | abort (ptr : Nat)
deriving DecidableEq

/-- The `// collect all consecutive free blocks` loop of
AllocatorImpl::deallocate.  Arguments: `final_block`, the list after
`final_block`, and the list the freed block's `next` currently points to.
Each iteration first reassigns `block.next` to `next.next` and then advances
`final_block` only if `next` is free.  Returns `final_block` and the list
`block.next` points to at exit. -/
def coalesce_loop (final : Block) : List Block → List Block → Block × List Block
  | [], bnext => (final, bnext)
  | next :: rest, _ =>
    if next.free then coalesce_loop next rest rest else (final, rest)

/-- One complete outcome of the deallocate scan on a chain. -/
inductive FreeOutcome where
  | notFound
  | doubleFree
  | freed (chain : List Block)
deriving DecidableEq

/-- The body of AllocatorImpl::deallocate on a chain of blocks: find the
block by pointer, abort on double free, otherwise mark it free and run the
coalescing loop on its successors.  The `final_block != block` test compares
the two blocks' fields (derived PartialEq); `next` links being positional,
the comparison here is on the remaining fields, which agrees with the source
whenever distinct nodes have distinct data addresses. -/
def dealloc_go (ptr : Nat) : List Block → FreeOutcome
  | [] => .notFound
  | b :: rest =>
    if b.data = ptr then
      if b.free then .doubleFree
      else
        match rest with
        | [] => .freed ({ b with free := true } :: [])
        | s0 :: srest =>
          let fs := coalesce_loop s0 srest (s0 :: srest)
          let bf : Block := { b with free := true }
          let b2 := if fs.1 = bf then bf
                    else { bf with size := bf.size + (fs.1.data + fs.1.size - b.data) }
          .freed (b2 :: fs.2)
    else
      match dealloc_go ptr rest with
      | .notFound => .notFound
      | .doubleFree => .doubleFree
      | .freed c => .freed (b :: c)

/-- AllocatorImpl::deallocate. -/
def deallocate (st : State) (ptr : Nat) : DeallocResult :=
  match dealloc_go ptr (st.head :: st.blocks) with
  | .notFound => .ok st
  | .doubleFree => .abort ptr
  | .freed [] => .ok st
  | .freed (h :: t) => .ok ⟨st.brk, h, t⟩

/-- States reachable from a fresh allocator (any initial break) by allocate
and deallocate calls.  Layout alignments are powers of two, as guaranteed by
Rust's Layout type. -/
inductive Reachable : State → Prop where
  | init (brk0 : Nat) : Reachable ⟨brk0, BLOCK0, []⟩
  | alloc (st : State) (l : Layout) (ok : Bool) (hpow : ∃ k, l.align = 2 ^ k) :
      Reachable st → Reachable (allocate st l ok).2
  | dealloc (st st2 : State) (ptr : Nat) :
      Reachable st → deallocate st ptr = .ok st2 → Reachable st2

/-- Rounding up never decreases the address (align_up under a positive
alignment). -/
theorem align_up_ge (x a : Nat) (ha : 0 < a) : x ≤ align_up x a := by
  unfold align_up
  have h1 : (x + a - 1) % a < a := Nat.mod_lt _ ha
  have h2 : (x + a - 1) % a ≤ x + a - 1 := Nat.mod_le _ _
  omega

/-- The list the freed block's next pointer designates when the coalescing
loop exits is either untouched or a suffix of the original successor list. -/
theorem coalesce_loop_suffix (l : List Block) : ∀ (f : Block) (b : List Block),
    (coalesce_loop f l b).2 = b ∨ (coalesce_loop f l b).2 <:+ l := by
  induction l with
  | nil => intro f b; left; rfl
  | cons next rest ih =>
    intro f b
    simp only [coalesce_loop]
    by_cases h : next.free = true
    · rw [if_pos h]
      rcases ih next rest with h2 | h2
      · right; rw [h2]; exact List.suffix_cons next rest
      · right; exact h2.trans (List.suffix_cons next rest)
    · rw [if_neg h]; right; exact List.suffix_cons next rest

/-- A successful deallocate scan keeps the chain's data addresses a sublist
of the original ones and preserves the first address. -/
theorem dealloc_go_freed (ptr : Nat) : ∀ (c c2 : List Block),
    dealloc_go ptr c = .freed c2 →
    List.Sublist (c2.map fun b => b.data) (c.map fun b => b.data) ∧
    (c2.map fun b => b.data).head? = (c.map fun b => b.data).head? := by
  intro c
  induction c with
  | nil => intro c2 h; simp [dealloc_go] at h
  | cons b rest ih =>
    intro c2 h
    simp only [dealloc_go] at h
    by_cases hdata : b.data = ptr
    · rw [if_pos hdata] at h
      by_cases hfree : b.free = true
      · rw [if_pos hfree] at h; simp at h
      · rw [if_neg hfree] at h
        cases rest with
        | nil =>
          injection h with h
          subst h
          exact ⟨by simp, by simp⟩
        | cons s0 srest =>
          injection h with h
          subst h
          have hsuf : (coalesce_loop s0 srest (s0 :: srest)).2 <:+ (s0 :: srest) := by
            rcases coalesce_loop_suffix srest s0 (s0 :: srest) with h1 | h1
            · rw [h1]
            · exact h1.trans (List.suffix_cons s0 srest)
          constructor
          · simp only [List.map_cons]
            split <;> exact ((hsuf.sublist.map fun b => b.data)).cons₂ b.data
          · simp only [List.map_cons, List.head?_cons]
            split <;> rfl
    · rw [if_neg hdata] at h
      cases hrec : dealloc_go ptr rest with
      | notFound => rw [hrec] at h; simp at h
      | doubleFree => rw [hrec] at h; simp at h
      | freed c0 =>
        rw [hrec] at h
        injection h with h
        subst h
        obtain ⟨hs, hh⟩ := ih c0 hrec
        exact ⟨hs.cons₂ b.data, by simp⟩

/-- An unknown pointer makes the deallocate scan report not-found. -/
theorem dealloc_go_of_find_none (ptr : Nat) : ∀ c,
    find_by_ptr ptr c = none → dealloc_go ptr c = .notFound := by
  intro c
  induction c with
  | nil => intro _; rfl
  | cons b rest ih =>
    intro h
    simp only [find_by_ptr] at h
    by_cases hdata : b.data = ptr
    · rw [if_pos hdata] at h; simp at h
    · rw [if_neg hdata] at h
      simp only [dealloc_go]
      rw [if_neg hdata, ih h]

/-- A pointer whose block is already free makes the deallocate scan report a
double free. -/
theorem dealloc_go_of_find_free (ptr : Nat) : ∀ c b,
    find_by_ptr ptr c = some b → b.free = true → dealloc_go ptr c = .doubleFree := by
  intro c
  induction c with
  | nil => intro b h _; simp [find_by_ptr] at h
  | cons hd rest ih =>
    intro b h hfree
    simp only [find_by_ptr] at h
    by_cases hdata : hd.data = ptr
    · rw [if_pos hdata] at h
      injection h with h
      subst h
      simp only [dealloc_go]
      rw [if_pos hdata, if_pos hfree]
    · rw [if_neg hdata] at h
      simp only [dealloc_go]
      rw [if_neg hdata, ih b h hfree]

/-- Structural invariant of reachable allocator states: the sentinel keeps
its dangling data address, the chain's data addresses are strictly
increasing from the head, and every heap block's data address is at most the
current break. -/
def Inv (st : State) : Prop :=
  st.head.data = 1 ∧
  ((st.head :: st.blocks).map fun b => b.data).Pairwise (fun a b => a < b) ∧
  ∀ b ∈ st.blocks, b.data ≤ st.brk

/-- Every reachable state satisfies the structural invariant. -/
theorem reachable_inv : ∀ st, Reachable st → Inv st := by
  intro st h
  induction h with
  | init brk0 =>
    exact ⟨rfl, by simp [BLOCK0], by simp⟩
  | alloc st l ok hpow hr ih =>
    obtain ⟨hhead, hpair, hbound⟩ := ih
    obtain ⟨k, hk⟩ := hpow
    have halign : 0 < l.align := hk ▸ Nat.two_pow_pos k
    simp only [allocate]
    split
    · exact ⟨hhead, hpair, hbound⟩
    · split
      · exact ⟨hhead, hpair, hbound⟩
      · split
        · exact ⟨hhead, hpair, hbound⟩
        · have h8 : (0 : Nat) < alignof_block := by norm_num [alignof_block]
          have h1 : st.brk ≤ align_up st.brk alignof_block := align_up_ge _ _ h8
          have h2 : align_up st.brk alignof_block + sizeof_block ≤
              align_up (align_up st.brk alignof_block + sizeof_block) l.align :=
            align_up_ge _ _ halign
          have hd : st.brk + 32 ≤
              align_up (align_up st.brk alignof_block + sizeof_block) l.align := by
            have h32 : sizeof_block = 32 := rfl
            omega
          refine ⟨hhead, ?_, ?_⟩
          · have hsplit :
                (st.head :: (st.blocks ++
                    [⟨align_up (align_up st.brk alignof_block + sizeof_block) l.align,
                      l.size, false⟩])) =
                (st.head :: st.blocks) ++
                    [⟨align_up (align_up st.brk alignof_block + sizeof_block) l.align,
                      l.size, false⟩] := rfl
            rw [hsplit, List.map_append, List.pairwise_append]
            refine ⟨hpair, by simp, ?_⟩
            intro a ha bdat hb
            simp only [List.map_cons, List.map_nil, List.mem_singleton] at hb
            subst hb
            simp only [List.map_cons, List.mem_cons, List.mem_map] at ha
            rcases ha with ha | ⟨blk, hblk, hdd⟩
            · rw [ha, hhead]; omega
            · have := hbound blk hblk
              omega
          · intro b hb
            rw [List.mem_append] at hb
            have hle : st.brk ≤ alloc_sz st.brk l := by
              have : alloc_sz st.brk l =
                  align_up (align_up st.brk alignof_block + sizeof_block) l.align + l.size :=
                rfl
              omega
            rcases hb with hb | hb
            · have := hbound b hb
              simp only []
              omega
            · simp only [List.mem_singleton] at hb
              subst hb
              have : alloc_sz st.brk l =
                  align_up (align_up st.brk alignof_block + sizeof_block) l.align + l.size :=
                rfl
              simp only []
              omega
  | dealloc st st2 ptr hr heq ih =>
    obtain ⟨hhead, hpair, hbound⟩ := ih
    unfold deallocate at heq
    cases hg : dealloc_go ptr (st.head :: st.blocks) with
    | notFound =>
      rw [hg] at heq
      injection heq with heq
      subst heq
      exact ⟨hhead, hpair, hbound⟩
    | doubleFree => rw [hg] at heq; simp at heq
    | freed c =>
      rw [hg] at heq
      cases c with
      | nil =>
        injection heq with heq
        subst heq
        exact ⟨hhead, hpair, hbound⟩
      | cons h2 t2 =>
        injection heq with heq
        subst heq
        obtain ⟨hsub, hhq⟩ := dealloc_go_freed ptr _ _ hg
        have hh2 : h2.data = st.head.data := by
          simpa using hhq
        have hpair2 : ((h2 :: t2).map fun b => b.data).Pairwise (fun a b => a < b) :=
          hpair.sublist hsub
        refine ⟨hh2.trans hhead, hpair2, ?_⟩
        intro b hb
        have hmem : b.data ∈ (h2 :: t2).map (fun b => b.data) := by
          simp only [List.map_cons, List.mem_cons, List.mem_map]
          right
          exact ⟨b, hb, rfl⟩
        have hmem2 : b.data ∈ (st.head :: st.blocks).map (fun b => b.data) :=
          hsub.subset hmem
        simp only [List.map_cons, List.mem_cons, List.mem_map] at hmem2
        rcases hmem2 with h1 | ⟨blk, hblk, hdd⟩
        · exfalso
          have hlt : h2.data < b.data := by
            have hp : (∀ a ∈ t2, h2.data < a.data) ∧
                List.Pairwise (fun a b => a < b) (List.map (fun b => b.data) t2) := by
              simpa using hpair2
            exact hp.1 b hb
          rw [hh2.trans hhead] at hlt
          rw [h1, hhead] at hlt
          omega
        · rw [← hdd]
          exact hbound blk hblk

end Speedrun

namespace Stupid

/-- lib.rs Block.  The raw `next` pointer is represented positionally by the
enclosing list. -/
structure Block where
  layout : Layout
  data : Nat
  is_free : Bool
deriving DecidableEq

/-- mem::size_of::<Block>() on x86-64 (Layout 16 + data 8 + next 8 + bool,
padded to alignment 8). -/
def sizeof_block : Nat := 40

/-- mem::size_of::<intptr_t>() on x86-64. -/
def sizeof_intptr : Nat := 8

/-- lib.rs align: `(size + (size_of::<intptr_t>() - 1)) & !(size_of::<intptr_t>() - 1)`,
rounding up to a multiple of 8 (the mask clears the low three bits of
size + 7, i.e. subtracts its remainder mod 8). -/
def align (size : Nat) : Nat :=
  (size + (sizeof_intptr - 1)) - (size + (sizeof_intptr - 1)) % sizeof_intptr

/-- lib.rs allocation_size: `align(size + align(mem::size_of::<Block>()))`. -/
def allocation_size (size : Nat) : Nat :=
  align (size + align sizeof_block)

/-- AllocatorImpl state: initialization flag, current break, the head block
(a copy stored in the struct), and the blocks linked after it. -/
structure State where
  is_initialized : Bool
  brk : Nat
  head : Block
  tail : List Block
deriving DecidableEq

/-- lib.rs request_block: reads the current break with sbrk(0) (null check =
`brk = 0`), extends the break by `allocation_size(align(layout.size()))`
(failure reported through `sbrk_ok`; the source checks both a null and a -1
return), and writes a block header at the old break whose data pointer is
`block.add(1)`, i.e. old break + size_of::<Block>().  Returns the block and
the new break. -/
def request_block (l : Layout) (brk : Nat) (sbrk_ok : Bool) : Option (Block × Nat) :=
  if brk = 0 then none
  else if sbrk_ok = false then none
  else some (⟨l, brk + sizeof_block, false⟩, brk + allocation_size (align l.size))

/-- AllocatorImpl::initialize (source name `initialize`): requests a block for
Layout::new::<()>() (size 0, align 1), copies it into `head` with
is_free = false, and sets the flag.  On failure the state is untouched. -/
def initialize_impl (st : State) (sbrk_ok : Bool) : Option State :=
  match request_block ⟨0, 1⟩ st.brk sbrk_ok with
  | none => none
  | some (blk, brk2) => some ⟨true, brk2, { blk with is_free := false }, []⟩

/-- lib.rs Block::find_first_fit: scan from the receiver; a block is skipped
when `layout.size() < self.layout.size() || !self.is_free`, i.e. a hit is a
free block whose recorded size is at most the requested size. -/
def find_first_fit (lsize : Nat) : List Block → Option Block
  | [] => none
  | b :: rest =>
    if lsize < b.layout.size ∨ b.is_free = false then find_first_fit lsize rest
    else some b

/-- lib.rs Block::with_ptr: first block whose data address equals the pointer. -/
def with_ptr (ptr : Nat) : List Block → Option Block
  | [] => none
  | b :: rest => if b.data = ptr then some b else with_ptr ptr rest

/-- AllocatorImpl::allocate: initialize on first use, then first-fit search
from the head; on a miss, request a fresh block and append it with
Block::insert (tail append).  Returns the data pointer (none = null) and the
state after the call.  A free-list hit mutates nothing. -/
def allocate (st : State) (l : Layout) (sbrk_ok : Bool) : Option Nat × State :=
  match (if st.is_initialized then some st else initialize_impl st sbrk_ok) with
  | none => (none, st)
  | some st1 =>
    match find_first_fit l.size (st1.head :: st1.tail) with
    | some b => (some b.data, st1)
    | none =>
      match request_block l st1.brk sbrk_ok with
      | none => (none, st1)
      | some (nb, brk2) =>
        (some nb.data, ⟨st1.is_initialized, brk2, st1.head, st1.tail ++ [nb]⟩)

/-- The deallocate scan: find the block by pointer, mark it free (with no
double-free check), and report the sbrk retraction amount
`allocation_size(block.layout.size())` when the block's next is null
(i.e. it is last in the chain), 0 otherwise. -/
def dealloc_go (ptr : Nat) : List Block → Option (List Block × Nat)
  | [] => none
  | b :: rest =>
    if b.data = ptr then
      some ({ b with is_free := true } :: rest,
        match rest with
        | [] => allocation_size b.layout.size
        | _ :: _ => 0)
    else
      match dealloc_go ptr rest with
      | none => none
      | some (c, r) => some (b :: c, r)

/-- AllocatorImpl::deallocate: unknown pointers are silently ignored; the
break is retracted when the freed block is last.  Always returns. -/
def deallocate (st : State) (ptr : Nat) : State :=
  match dealloc_go ptr (st.head :: st.tail) with
  | none => st
  | some ([], _) => st
  | some (h :: t, r) => ⟨st.is_initialized, st.brk - r, h, t⟩

/-- StupidAllocator's GlobalAlloc::alloc: a size-0 layout returns the null
pointer before the lock is taken; otherwise the locked AllocatorImpl::allocate
runs. -/
def global_alloc (st : State) (l : Layout) (sbrk_ok : Bool) : Option Nat × State :=
  if l.size = 0 then (none, st) else allocate st l sbrk_ok

/-- StupidAllocator's Allocator::allocate: calls AllocatorImpl::allocate with
no size check; a null result is surfaced as Err(AllocError), modelled by
`none`. -/
def trait_allocate (st : State) (l : Layout) (sbrk_ok : Bool) : Option Nat × State :=
  allocate st l sbrk_ok

/-- A fresh StupidAllocator over an initial break: uninitialized, with the
temporary null head `Block { data: null, layout: Layout::new::<()>(), next: null, is_free: false }`. -/
def initState (brk0 : Nat) : State := ⟨false, brk0, ⟨⟨0, 1⟩, 0, false⟩, []⟩

/-- An unknown pointer makes the deallocate scan find nothing. -/
theorem dealloc_go_of_none (ptr : Nat) : ∀ c,
    with_ptr ptr c = none → dealloc_go ptr c = none := by
  intro c
  induction c with
  | nil => intro _; rfl
  | cons b rest ih =>
    intro h
    simp only [with_ptr] at h
    by_cases hdata : b.data = ptr
    · rw [if_pos hdata] at h; simp at h
    · rw [if_neg hdata] at h
      simp only [dealloc_go]
      rw [if_neg hdata, ih h]

/-- A refused break extension makes request_block fail. -/
theorem request_block_fail (l : Layout) (brk : Nat) :
    request_block l brk false = none := by
  unfold request_block
  split
  · rfl
  · simp

/-- A refused break extension makes first-use initialization fail without
touching the state. -/
theorem initialize_fail (st : State) : initialize_impl st false = none := by
  unfold initialize_impl
  rw [request_block_fail]

end Stupid

/-!  Concrete scenario states, each reached by the operation sequences proved
in the claim theorems below.  All runs start from an initial break of 8. -/

/-- Fresh allocator.rs state with initial break 8. -/
def sp0 : Speedrun.State := ⟨8, Speedrun.BLOCK0, []⟩

/-- After allocate(size 16, align 1): block at 8, payload 40, break 56. -/
def sp1 : Speedrun.State := ⟨56, Speedrun.BLOCK0, [⟨40, 16, false⟩]⟩

/-- After deallocate(40): the single block is free. -/
def sp1f : Speedrun.State := ⟨56, Speedrun.BLOCK0, [⟨40, 16, true⟩]⟩

/-- After two allocate(16, 1) calls: payloads 40 and 88, break 104. -/
def sp2 : Speedrun.State := ⟨104, Speedrun.BLOCK0, [⟨40, 16, false⟩, ⟨88, 16, false⟩]⟩

/-- After deallocate(40) on sp2: the freed block's size was inflated to 80
(spanning the still-allocated, still-linked block at 88). -/
def sp2f : Speedrun.State := ⟨104, Speedrun.BLOCK0, [⟨40, 80, true⟩, ⟨88, 16, false⟩]⟩

/-- The head block StupidAllocator's initialization installs from break 8. -/
def shead48 : Stupid.Block := ⟨⟨0, 1⟩, 48, false⟩

/-- StupidAllocator after init and allocate(16, 1): payload 88, break 104. -/
def stup16a : Stupid.State := ⟨true, 104, shead48, [⟨⟨16, 1⟩, 88, false⟩]⟩

/-- After deallocate(88): block free and the break retracted to 48. -/
def stup16f : Stupid.State := ⟨true, 48, shead48, [⟨⟨16, 1⟩, 88, true⟩]⟩

/-- After allocate(4, 1) on stup16f: the free-list scan misses (the inverted
comparison skips the capacity-16 block for a request of 4), so request_block
reuses the retracted break 48 — in real memory the new header overwrites the
still-linked freed block and the tail insert then points that node at
itself; positionally the model records a second block carrying the same data
address 88. -/
def stup16dup : Stupid.State := ⟨true, 96, shead48, [⟨⟨16, 1⟩, 88, true⟩, ⟨⟨4, 1⟩, 88, false⟩]⟩

/-- StupidAllocator after init and allocate(4, 1). -/
def stup4a : Stupid.State := ⟨true, 96, shead48, [⟨⟨4, 1⟩, 88, false⟩]⟩

/-- After deallocate(88): break retracted 96 to 48. -/
def stup4f : Stupid.State := ⟨true, 48, shead48, [⟨⟨4, 1⟩, 88, true⟩]⟩

/-- After a second deallocate(88): the break is retracted again, to 0. -/
def stup4ff : Stupid.State := ⟨true, 0, shead48, [⟨⟨4, 1⟩, 88, true⟩]⟩

/-- StupidAllocator after init and allocate(2, 1). -/
def stup2a : Stupid.State := ⟨true, 96, shead48, [⟨⟨2, 1⟩, 88, false⟩]⟩

/-- After deallocate(88). -/
def stup2f : Stupid.State := ⟨true, 48, shead48, [⟨⟨2, 1⟩, 88, true⟩]⟩

/-- sp1 is the state allocate produces from sp0. -/
theorem sp1_step : Speedrun.allocate sp0 ⟨16, 1⟩ true = (some 40, sp1) := by decide

/-- sp2 is the state a second allocate produces from sp1. -/
theorem sp2_step : Speedrun.allocate sp1 ⟨16, 1⟩ true = (some 88, sp2) := by decide

/-- sp2f is the state deallocate(40) produces from sp2. -/
theorem sp2f_step : Speedrun.deallocate sp2 40 = .ok sp2f := by decide

/-- sp1 is reachable. -/
theorem sp1_reachable : Speedrun.Reachable sp1 := by
  have h := Speedrun.Reachable.alloc sp0 ⟨16, 1⟩ true ⟨0, rfl⟩ (Speedrun.Reachable.init 8)
  rwa [sp1_step] at h

/-- sp2 is reachable. -/
theorem sp2_reachable : Speedrun.Reachable sp2 := by
  have h := Speedrun.Reachable.alloc sp1 ⟨16, 1⟩ true ⟨0, rfl⟩ sp1_reachable
  rwa [sp2_step] at h

/-- sp2f is reachable. -/
theorem sp2f_reachable : Speedrun.Reachable sp2f :=
  Speedrun.Reachable.dealloc sp2 sp2f 40 sp2_reachable sp2f_step


/-!  Claim theorems. -/

/-- C1: the spec claims every successful allocate returns a pointer meeting
the caller's power-of-two alignment.  Refuted on StupidAllocator (lib.rs):
the payload address is always header-end (break + 40) regardless of
Layout::align, so from break 8 an allocate(size 1, align 32) succeeds with
pointer 88, and 88 mod 32 = 24. -/
theorem c1_alignment_postcondition_fails :
    (Stupid.allocate (Stupid.initState 8) ⟨1, 32⟩ true).1 = some 88 ∧
    (∃ k, (32 : Nat) = 2 ^ k) ∧ 88 % 32 = 24 :=
  ⟨by decide, ⟨5, rfl⟩, by decide⟩

/-- C2: the spec claims find_first_fit returns the first free block of
capacity at least the request.  Refuted on lib.rs Block::find_first_fit: its
comparison is inverted, so for a request of 10 it returns the free block of
capacity 4 and skips the adequate free block of capacity 100; the
allocator.rs version conforms and returns the capacity-100 block. -/
theorem c2_find_first_fit_eval :
    Stupid.find_first_fit 10 [⟨⟨4, 1⟩, 100, true⟩, ⟨⟨100, 1⟩, 200, true⟩]
      = some ⟨⟨4, 1⟩, 100, true⟩ ∧
    (4 : Nat) < 10 ∧ (10 : Nat) ≤ 100 ∧
    Speedrun.find_first_fit 10 [⟨100, 4, true⟩, ⟨200, 100, true⟩]
      = some ⟨200, 100, true⟩ := by decide

/-- C3 counterexample: the claim says every double free aborts the process.
On StupidAllocator, deallocating 88 twice returns normally both times: the
block is already marked free at the second call, which silently succeeds and
even retracts the break a second time (48 to 0). -/
theorem c3_counterexample :
    Stupid.deallocate stup4a 88 = stup4f ∧
    Stupid.with_ptr 88 (stup4f.head :: stup4f.tail) = some ⟨⟨4, 1⟩, 88, true⟩ ∧
    Stupid.deallocate stup4f 88 = stup4ff ∧
    stup4f.brk = 48 ∧ stup4ff.brk = 0 := by decide

/-- C3 amended: in the allocator.rs variant, deallocate on a pointer whose
block is already marked free aborts the process with a diagnostic carrying
that pointer; the lib.rs variant has no double-free check and returns
silently. -/
theorem c3_double_free_aborts : ∀ (st : Speedrun.State) (ptr : Nat) (b : Speedrun.Block),
    Speedrun.find_by_ptr ptr (st.head :: st.blocks) = some b → b.free = true →
    Speedrun.deallocate st ptr = .abort ptr := by
  intro st ptr b h hf
  unfold Speedrun.deallocate
  rw [Speedrun.dealloc_go_of_find_free ptr _ b h hf]

/-- C3 witness: freeing 40 twice in the allocator.rs model aborts. -/
theorem c3_double_free_aborts_witness :
    Speedrun.deallocate sp1f 40 = .abort 40 :=
  c3_double_free_aborts sp1f 40 ⟨40, 16, true⟩ (by decide) (by decide)

/-- C4 counterexample: the claim says deallocate of a pointer never returned
by allocate terminates the process.  Both variants return normally with the
state unchanged: pointer 999 is in neither list. -/
theorem c4_counterexample :
    Speedrun.deallocate sp2 999 = .ok sp2 ∧
    Stupid.deallocate stup16a 999 = stup16a := by decide

/-- C4 amended: in both variants a deallocate whose pointer matches no
block's data address returns silently and leaves the allocator state exactly
unchanged. -/
theorem c4_unknown_pointer_silent :
    (∀ (st : Speedrun.State) (ptr : Nat),
      Speedrun.find_by_ptr ptr (st.head :: st.blocks) = none →
      Speedrun.deallocate st ptr = .ok st) ∧
    (∀ (st : Stupid.State) (ptr : Nat),
      Stupid.with_ptr ptr (st.head :: st.tail) = none →
      Stupid.deallocate st ptr = st) := by
  constructor
  · intro st ptr h
    unfold Speedrun.deallocate
    rw [Speedrun.dealloc_go_of_find_none ptr _ h]
  · intro st ptr h
    unfold Stupid.deallocate
    rw [Stupid.dealloc_go_of_none ptr _ h]

/-- C4 witness: deallocating the never-returned pointer 555 is a silent
no-op. -/
theorem c4_unknown_pointer_silent_witness :
    Speedrun.deallocate sp1 555 = .ok sp1 :=
  c4_unknown_pointer_silent.1 sp1 555 (by decide)

/-- C5: the spec claims allocate(n); deallocate(p); allocate(n) returns p
again without growing the break.  Refuted on allocator.rs: find_first_fit is
passed an absolute end address (104 here), which no block size matches, so
the freed block at 40 is not reused; the second allocate returns the fresh
pointer 88 and grows the break from 56 to 104.  The lib.rs variant does
return the same pointer 88 with the break unchanged. -/
theorem c5_reuse_eval :
    Speedrun.allocate sp0 ⟨16, 1⟩ true = (some 40, sp1) ∧
    Speedrun.deallocate sp1 40 = .ok sp1f ∧
    Speedrun.allocate sp1f ⟨16, 1⟩ true
      = (some 88, ⟨104, Speedrun.BLOCK0, [⟨40, 16, true⟩, ⟨88, 16, false⟩]⟩) ∧
    (88 : Nat) ≠ 40 ∧ sp1f.brk = 56 ∧ (56 : Nat) < 104 ∧
    Stupid.allocate (Stupid.initState 8) ⟨16, 1⟩ true = (some 88, stup16a) ∧
    Stupid.deallocate stup16a 88 = stup16f ∧
    Stupid.allocate stup16f ⟨16, 1⟩ true = (some 88, stup16f) := by decide

/-- C6: the spec claims coalescing stops at the first non-free successor and
leaves non-free blocks unchanged.  Refuted on allocator.rs: freeing the
block at 40 whose sole successor at 88 is still allocated merges that
successor's extent anyway (the freed block's size becomes 16 + (104 - 40) =
80, double-counting its own 16), spanning past the successor's start 88 and
even past the break 104, while the allocated successor stays linked. -/
theorem c6_coalesce_eval :
    Speedrun.allocate sp1 ⟨16, 1⟩ true = (some 88, sp2) ∧
    sp2.blocks = [⟨40, 16, false⟩, ⟨88, 16, false⟩] ∧
    Speedrun.deallocate sp2 40 = .ok sp2f ∧
    sp2f.blocks = [⟨40, 80, true⟩, ⟨88, 16, false⟩] ∧
    (88 : Nat) < 40 + 80 ∧ (104 : Nat) < 40 + 80 := by decide

/-- C7: when the break extension is refused, allocate in both variants
returns the null/error result through the code's failure branch and the
allocator state (free list and break) is exactly the state before the call;
a free-list hit needs no extension and also leaves the state unchanged. -/
theorem c7_oom_propagates :
    (∀ (st : Speedrun.State) (l : Layout), (Speedrun.allocate st l false).2 = st) ∧
    (∀ (st : Speedrun.State) (l : Layout),
      Speedrun.find_first_fit (Speedrun.alloc_sz st.brk l) (st.head :: st.blocks) = none →
      (Speedrun.allocate st l false).1 = none) ∧
    (∀ (st : Stupid.State) (l : Layout), (Stupid.allocate st l false).2 = st) ∧
    (∀ (st : Stupid.State) (l : Layout),
      Stupid.find_first_fit l.size (st.head :: st.tail) = none →
      (Stupid.allocate st l false).1 = none) := by
  refine ⟨?_, ?_, ?_, ?_⟩
  · intro st l
    simp only [Speedrun.allocate]
    split
    · rfl
    · simp
  · intro st l h
    simp only [Speedrun.allocate]
    rw [h]
    simp
  · intro st l
    simp only [Stupid.allocate]
    by_cases hi : st.is_initialized = true
    · rw [if_pos hi]
      cases hf : Stupid.find_first_fit l.size (st.head :: st.tail) with
      | some b => simp [hf]
      | none => simp [hf, Stupid.request_block_fail]
    · rw [if_neg hi, Stupid.initialize_fail]
  · intro st l h
    simp only [Stupid.allocate]
    by_cases hi : st.is_initialized = true
    · rw [if_pos hi]
      simp [h, Stupid.request_block_fail]
    · rw [if_neg hi, Stupid.initialize_fail]

/-- C7 witness: a refused extension on concrete states returns the error and
leaves them untouched. -/
theorem c7_oom_propagates_witness :
    (Speedrun.allocate sp1 ⟨16, 1⟩ false).2 = sp1 ∧
    (Speedrun.allocate sp1 ⟨16, 1⟩ false).1 = none ∧
    (Stupid.allocate stup2a ⟨64, 1⟩ false).2 = stup2a ∧
    (Stupid.allocate stup2a ⟨64, 1⟩ false).1 = none :=
  ⟨c7_oom_propagates.1 sp1 ⟨16, 1⟩,
   c7_oom_propagates.2.1 sp1 ⟨16, 1⟩ (by decide),
   c7_oom_propagates.2.2.1 stup2a ⟨64, 1⟩,
   c7_oom_propagates.2.2.2 stup2a ⟨64, 1⟩ (by decide)⟩

/-- C8: the spec claims a block reused by an allocate hit transitions back
to allocated.  Refuted on StupidAllocator: after allocate(2) returning 88,
deallocate(88), a second allocate(2) returns 88 via the free-list hit but
the state is completely unchanged, so the block is still marked free; a
third identical allocate hands out 88 once more while the second allocation
is live. -/
theorem c8_reused_block_stays_free :
    Stupid.allocate (Stupid.initState 8) ⟨2, 1⟩ true = (some 88, stup2a) ∧
    Stupid.deallocate stup2a 88 = stup2f ∧
    Stupid.allocate stup2f ⟨2, 1⟩ true = (some 88, stup2f) ∧
    stup2f.tail = [⟨⟨2, 1⟩, 88, true⟩] := by decide

/-- C9 counterexample: the claim says that after every operation sequence
the list stays strictly ordered by address with no overlap.  Both parts fail
somewhere in the repository.  allocator.rs: the reachable state sp2f
(allocate 16, allocate 16, deallocate 40 from break 8) has a block spanning
[40, 120) ahead of a linked block at [88, 104).  lib.rs: from the reachable
state stup16f (allocate 16, deallocate 88 — which retracts the break to 48),
allocate(4, 1) appends a new block with the already-linked data address 88,
so the chain addresses 48, 88, 88 are not strictly increasing (and in the
source the reused header overwrite plus tail insert makes the list cyclic). -/
theorem c9_counterexample :
    (Speedrun.Reachable sp2f ∧
      ¬ (sp2f.blocks.Pairwise fun a b => a.data + a.size ≤ b.data)) ∧
    (Stupid.allocate (Stupid.initState 8) ⟨16, 1⟩ true = (some 88, stup16a) ∧
      Stupid.deallocate stup16a 88 = stup16f ∧
      Stupid.allocate stup16f ⟨4, 1⟩ true = (some 88, stup16dup) ∧
      ¬ (((stup16dup.head :: stup16dup.tail).map fun b => b.data).Pairwise
          fun a b => a < b)) :=
  ⟨⟨sp2f_reachable, by decide⟩, by decide⟩

/-- C9 amended, scoped to the allocator.rs variant (its break never
retracts, so block addresses are fresh): in every reachable allocator.rs
state the chain's data addresses are strictly increasing from the head
sentinel (so the chain is finite, acyclic and traversal terminates), but
blocks may overlap after a deallocation-triggered merge.  No such ordering
holds for lib.rs, whose break retraction lets a later allocate reuse a
linked block's address (see the counterexample). -/
theorem c9_addresses_ascending : ∀ st, Speedrun.Reachable st →
    ((st.head :: st.blocks).map fun b => b.data).Pairwise (fun a b => a < b) :=
  fun st h => (Speedrun.reachable_inv st h).2.1

/-- C9 witness: the addresses of the two-block state are ascending. -/
theorem c9_addresses_ascending_witness :
    ((sp2.head :: sp2.blocks).map fun b => b.data).Pairwise (fun a b => a < b) :=
  c9_addresses_ascending sp2 sp2_reachable

/-- C10: StupidAllocator's GlobalAlloc::alloc returns null for a size-0
layout without touching the allocator state (the early return precedes the
lock acquisition in the source), while the Allocator-trait allocate performs
no size-0 check: it is literally the plain allocate call, and on a fresh
allocator a size-0 request goes through initialization and heap growth and
returns pointer 88. -/
theorem c10_zero_size_paths :
    (∀ (st : Stupid.State) (l : Layout) (ok : Bool),
      l.size = 0 → Stupid.global_alloc st l ok = (none, st)) ∧
    (∀ (st : Stupid.State) (l : Layout) (ok : Bool),
      Stupid.trait_allocate st l ok = Stupid.allocate st l ok) ∧
    Stupid.trait_allocate (Stupid.initState 8) ⟨0, 1⟩ true
      = (some 88, ⟨true, 88, shead48, [⟨⟨0, 1⟩, 88, false⟩]⟩) := by
  refine ⟨?_, fun st l ok => rfl, by decide⟩
  intro st l ok h
  unfold Stupid.global_alloc
  rw [if_pos h]

/-- C10 witness: a size-0 GlobalAlloc::alloc on a concrete state is a null
no-op. -/
theorem c10_zero_size_paths_witness :
    Stupid.global_alloc stup2a ⟨0, 8⟩ true = (none, stup2a) :=
  c10_zero_size_paths.1 stup2a ⟨0, 8⟩ true rfl
